import Mathlib

/-!
Verification of the Message Dispatch & Credit Metering Engine of the
biisho-a2p repository, shallowly embedded from `src/routes/message.ts`
(with the data model from `prisma/schema.prisma`).

Modelling conventions:
* The persistent store is a single `St` record.  Prisma tables become
  lists / keyed functions; primary keys become `Nat` ids drawn from a
  `nextId` counter.
* `Date` values are abstract `Nat` instants supplied by the caller.
* Each Express handler becomes a pure function `St → … → Result × St`;
  a Prisma `$transaction` block is one atomic state update.
* The `setTimeout` delivery simulation in `POST /:id/send` becomes a
  pending settlement task id recorded in `pendingSettles`; running the
  timer body is the `settleDelivery` function.
* Fields of the source that no claim touches (timestamps like
  `createdAt`/`updatedAt`, the monetary float `amount`, description
  strings, carrier/country columns, date-range list filters) are
  omitted; everything control-flow relevant is kept.
-/

namespace A2P

/-- Message status union used by the routes
(`src/types/message.ts`, subset of the prisma `MessageStatus` enum
actually reachable from `src/routes/message.ts`). -/
inductive MessageStatus where
  | draft
  | pendingApproval
  | approved
  | rejected
  | sent
  | delivered
  | failed
  deriving DecidableEq, Repr

/-- `MessageType` enum (the routes validate against these three values). -/
inductive MessageType where
  | promotional
  | transactional
  | informational
  deriving DecidableEq, Repr

/-- Per-recipient status (`MessageRecipient.status` values written by the
routes: PENDING at creation, SENT at send, DELIVERED/FAILED at settlement). -/
inductive RecipientStatus where
  | pending
  | sent
  | delivered
  | failed
  deriving DecidableEq, Repr

/-- One row of the `subscriptions` table (the fields `checkUserCredits`
and the send debit touch). -/
structure Subscription where
  credits : Nat
  usedCredits : Nat
  deriving DecidableEq, Repr

/-- An element of the `recipients` array of `CreateMessageRequest`, and
the shape `getRecipientsFromLists` selects from contacts. -/
structure RecipientInput where
  phone : String
  firstName : Option String
  lastName : Option String
  deriving DecidableEq, Repr

/-- One row of the `message_recipients` table. -/
structure Recipient where
  rid : Nat
  phone : String
  firstName : Option String
  lastName : Option String
  status : RecipientStatus
  deliveredAt : Option Nat
  failureReason : Option String
  deriving DecidableEq, Repr

/-- One row of the `messages` table.  `creditsUsed`, `approvedBy` and
`rejectionReason` exist in the prisma schema (defaults 0 / NULL); no
route in `src/routes/message.ts` ever writes them. -/
structure Msg where
  id : Nat
  userId : Nat
  content : String
  messageType : MessageType
  status : MessageStatus
  totalRecipients : Nat
  deliveredCount : Nat
  failedCount : Nat
  creditsUsed : Nat
  sentAt : Option Nat
  scheduledAt : Option Nat
  campaignId : Option Nat
  approvedBy : Option Nat
  rejectionReason : Option String
  deriving DecidableEq, Repr

/-- A `transactions` row as created by `POST /:id/send` (type
CREDIT_USAGE; the monetary `amount` float and description strings are
omitted, the signed credit delta is kept). -/
structure Txn where
  userId : Nat
  credits : Int
  messageId : Nat
  deriving DecidableEq, Repr

/-- An `audit_logs` row; `creditsDetail` carries the `creditsRequired`
detail of `message.created` resp. the `creditsUsed` detail of
`message.sent` (other detail fields omitted). -/
structure AuditEntry where
  userId : Nat
  action : String
  creditsDetail : Option Nat
  deriving DecidableEq, Repr

/-- One contact row as seen by `getRecipientsFromLists`: owner, phone,
names, ACTIVE flag and the contact lists it belongs to. -/
structure Contact where
  userId : Nat
  phone : String
  firstName : Option String
  lastName : Option String
  active : Bool
  listIds : List Nat
  deriving DecidableEq, Repr

/-- A `sender_names` row (id, owner, APPROVED status flag). -/
structure SenderName where
  id : Nat
  userId : Nat
  approved : Bool
  deriving DecidableEq, Repr

/-- The persistent store.  `subs` and `recips` are keyed by
userId / messageId, mirroring the unique-key lookups the routes use. -/
structure St where
  nextId : Nat
  subs : Nat → Option Subscription
  messages : List Msg
  recips : Nat → List Recipient
  txns : List Txn
  audits : List AuditEntry
  contacts : List Contact
  senderNames : List SenderName
  adminApprovalRequired : Bool
  pendingSettles : List Nat

/-- Error outcomes of the handlers, one constructor per distinct
non-success response of `src/routes/message.ts` (the HTTP body string is
given in the comment). -/
inductive ApiErr where
  /-- 400 "Validation failed" (express-validator). -/
  | validationFailed
  /-- 400 "At least one recipient or contact list must be specified". -/
  | noRecipients
  /-- 400 "No valid recipients found". -/
  | noValidRecipients
  /-- 400 "Insufficient credits. Required: …". -/
  | insufficientCredits
  /-- 400 "Invalid or unapproved sender name". -/
  | invalidSenderName
  /-- 404 "Message not found". -/
  | notFound
  /-- 400 "Message cannot be updated in its current status". -/
  | cannotUpdateInCurrentStatus
  /-- 400 "Only draft messages can be deleted". -/
  | messageNotEditable
  /-- 400 "Message cannot be sent in its current status". -/
  | invalidStateTransition
  deriving DecidableEq, Repr

/-- `checkUserCredits` (message.ts:24-37): available = credits −
usedCredits, compared as signed numbers exactly like the JS arithmetic. -/
def checkUserCredits (s : St) (userId : Nat) (requiredCredits : Nat) : Bool :=
  match s.subs userId with
  | none => false
  | some sub =>
      decide ((requiredCredits : Int) ≤ (sub.credits : Int) - (sub.usedCredits : Int))

/-- `calculateMessageCredits` (message.ts:40-43):
`Math.ceil(content.length / 160)`, as exact `Nat` ceiling division. -/
def calculateMessageCredits (content : String) : Nat :=
  (content.length + 159) / 160

/-- `getRecipientsFromLists` (message.ts:46-72): ACTIVE contacts of this
user belonging to at least one of the given lists, projected to
phone/firstName/lastName. -/
def getRecipientsFromLists (s : St) (userId : Nat) (contactListIds : List Nat) :
    List RecipientInput :=
  (s.contacts.filter fun c =>
      c.userId == userId && c.active && c.listIds.any (fun l => contactListIds.contains l)).map
    fun c => ⟨c.phone, c.firstName, c.lastName⟩

/-- The duplicate removal of `POST /` (message.ts:332-336):
`allRecipients.filter((r,i,self) => i === self.findIndex(x => x.phone === r.phone))`
keeps exactly the first occurrence of every phone number, in input
order.  Embedded structurally: keep the head and drop its phone from
the deduplication of the tail (`dedupeByPhone_first_seen` below proves
the first-occurrence semantics of the source line). -/
def dedupeByPhone : List RecipientInput → List RecipientInput
  | [] => []
  | r :: rs => r :: (dedupeByPhone rs).filter fun x => x.phone ≠ r.phone

/-- `findFirst { id, userId }` — the ownership-scoped lookup used by
`GET /:id`, `PUT /:id`, `DELETE /:id` and `POST /:id/send`. -/
def findOwn (s : St) (userId id : Nat) : Option Msg :=
  s.messages.find? fun m => decide (m.id = id ∧ m.userId = userId)

/-- Does the char list `pat` start the char list? -/
def charPrefix : List Char → List Char → Bool
  | _, [] => true
  | [], _ :: _ => false
  | a :: as, b :: bs => a == b && charPrefix as bs

/-- Substring test on char lists (used for the `contains` filter of the
list query, `mode: "insensitive"` modelled by lower-casing both sides). -/
def charSub : List Char → List Char → Bool
  | [], pat => charPrefix [] pat
  | a :: t, pat => charPrefix (a :: t) pat || charSub t pat

/-- Query parameters of `GET /` (`MessageFilters`; the ISO date range
fields are omitted — creation time is not part of the model). -/
structure MessageFilters where
  status : Option MessageStatus
  messageType : Option MessageType
  campaignId : Option Nat
  search : Option String
  page : Nat
  limit : Nat
  deriving Repr

/-- The where-clause built by `GET /` (message.ts:126-150).  Faithfully
to the source, the `userId: req.user!.id` condition is commented out
(message.ts:128), so the clause never mentions the requester. -/
def listWhere (f : MessageFilters) (m : Msg) : Bool :=
  (match f.status with | none => true | some st => m.status == st) &&
  (match f.messageType with | none => true | some mt => m.messageType == mt) &&
  (match f.campaignId with | none => true | some c => m.campaignId == some c) &&
  (match f.search with
   | none => true
   | some q => charSub m.content.toLower.data q.toLower.data)

/-- `GET /` (message.ts:74-215): filter, order by creation time
descending (insertion order reversed) and paginate with
`skip = (page − 1) * limit`, `take = limit`.  The authenticated
`requester` is received but — the where clause having no owner
condition — never used. -/
def getMessages (s : St) (requester : Nat) (f : MessageFilters) : List Msg :=
  let _ := requester
  (((s.messages.filter (listWhere f)).reverse.drop ((f.page - 1) * f.limit)).take f.limit)

/-- `GET /:id` (message.ts:218-277): owner-scoped `findFirst`. -/
def getMessageById (s : St) (requester id : Nat) : Option Msg :=
  findOwn s requester id

/-- The initial-status decision of `POST /` (message.ts:382-399):
promotional messages are PENDING_APPROVAL iff the
`admin_approval_required` system setting is "true", everything else is
auto-APPROVED. -/
def initialStatusFor (s : St) (mt : MessageType) : MessageStatus :=
  match mt with
  | .promotional => if s.adminApprovalRequired then .pendingApproval else .approved
  | _ => .approved

/-- `POST /` (message.ts:280-479), the Submit operation.  Returns the
created message.  Every error branch returns the store unchanged — the
handler performs no write before its single `$transaction`. -/
def createMessage (s : St) (userId : Nat) (content : String) (mt : MessageType)
    (recipients : List RecipientInput) (contactListIds : List Nat)
    (senderNameId : Option Nat) (scheduledAt : Option Nat) (campaignId : Option Nat) :
    Except ApiErr Msg × St :=
  -- express-validator: content trimmed length within 1..1600
  if ¬(1 ≤ content.length ∧ content.length ≤ 1600) then (.error .validationFailed, s)
  -- message.ts:313-320
  else if recipients = [] ∧ contactListIds = [] then (.error .noRecipients, s)
  else
    let allRecipients :=
      recipients ++ (if contactListIds ≠ [] then getRecipientsFromLists s userId contactListIds else [])
    let uniqueRecipients := dedupeByPhone allRecipients
    -- message.ts:338-344
    if uniqueRecipients = [] then (.error .noValidRecipients, s)
    else
      let creditsPerMessage := calculateMessageCredits content
      let totalCreditsRequired := creditsPerMessage * uniqueRecipients.length
      -- message.ts:350-361
      if ¬ checkUserCredits s userId totalCreditsRequired then (.error .insufficientCredits, s)
      -- message.ts:363-380
      else if senderNameId.any (fun sid =>
          ¬ s.senderNames.any fun sn => sn.id == sid && sn.userId == userId && sn.approved) then
        (.error .invalidSenderName, s)
      else
        let st0 := initialStatusFor s mt
        let mid := s.nextId
        let message : Msg :=
          { id := mid, userId := userId, content := content, messageType := mt,
            status := st0, totalRecipients := uniqueRecipients.length,
            deliveredCount := 0, failedCount := 0, creditsUsed := 0,
            sentAt := none, scheduledAt := scheduledAt, campaignId := campaignId,
            approvedBy := none, rejectionReason := none }
        let newRecips : List Recipient :=
          (List.range uniqueRecipients.length).zipWith
            (fun k r => { rid := mid + 1 + k, phone := r.phone,
                          firstName := r.firstName, lastName := r.lastName,
                          status := .pending, deliveredAt := none, failureReason := none })
            uniqueRecipients
        (.ok message,
         { s with
            nextId := mid + 1 + uniqueRecipients.length,
            messages := s.messages ++ [message],
            recips := fun k => if k = mid then newRecips else s.recips k,
            audits := s.audits ++
              [{ userId := userId, action := "message.created",
                 creditsDetail := some totalCreditsRequired }] })

/-- Body of `PUT /:id`.  The source assigns the raw JSON body
(`const updateData: UpdateMessageRequest = req.body`, message.ts:507)
and spreads it into `prisma.message.update` (message.ts:537-538);
express-validator checks only `content`/`messageType`/`scheduledAt`/
`status` and strips nothing, so every scalar `Message` column a client
puts in the body is written.  All columns of the modelled `Msg` are
therefore present here (a field is `some v` when the body carries a
well-typed value for it; ill-typed values and unknown keys make the
Prisma call throw — a 500 with no write — and explicit JSON nulls on
nullable columns are not modelled).  The primary key `id` is the one
spreadable column omitted: ids are server-generated and store-unique
in this model, and no claim turns on key rewrites. -/
structure UpdateReq where
  content : Option String := none
  messageType : Option MessageType := none
  scheduledAt : Option Nat := none
  status : Option MessageStatus := none
  totalRecipients : Option Nat := none
  deliveredCount : Option Nat := none
  failedCount : Option Nat := none
  creditsUsed : Option Nat := none
  sentAt : Option Nat := none
  campaignId : Option Nat := none
  userId : Option Nat := none
  approvedBy : Option Nat := none
  rejectionReason : Option String := none
  deriving Repr

/-- The express-validator checks of `PUT /:id` (message.ts:484-493):
only `content` and `status` (and the enumerated `messageType`, typed
here) are constrained; every other body field passes unvalidated. -/
def validUpdate (u : UpdateReq) : Bool :=
  (match u.content with
   | none => true
   | some c => decide (1 ≤ c.length ∧ c.length ≤ 1600)) &&
  (match u.status with
   | none => true
   | some st =>
       st == .draft || st == .pendingApproval || st == .approved || st == .rejected)

/-- The `{...updateData}` spread of `PUT /:id` (message.ts:535-543):
every column present in the body overwrites the stored value, absent
columns keep it (`scheduledAt` is additionally converted to a `Date`,
which the abstract instant already is). -/
def applyUpdate (u : UpdateReq) (m : Msg) : Msg :=
  { m with
      content := u.content.getD m.content,
      messageType := u.messageType.getD m.messageType,
      scheduledAt := (match u.scheduledAt with | some t => some t | none => m.scheduledAt),
      status := u.status.getD m.status,
      totalRecipients := u.totalRecipients.getD m.totalRecipients,
      deliveredCount := u.deliveredCount.getD m.deliveredCount,
      failedCount := u.failedCount.getD m.failedCount,
      creditsUsed := u.creditsUsed.getD m.creditsUsed,
      sentAt := (match u.sentAt with | some t => some t | none => m.sentAt),
      campaignId := (match u.campaignId with | some c => some c | none => m.campaignId),
      userId := u.userId.getD m.userId,
      approvedBy := (match u.approvedBy with | some a => some a | none => m.approvedBy),
      rejectionReason :=
        (match u.rejectionReason with | some r => some r | none => m.rejectionReason) }

/-- `PUT /:id` (message.ts:482-589): owner-scoped lookup, editable only
while status ∈ {DRAFT, PENDING_APPROVAL}, then `update where {id}` with
the spread body, plus an audit row.  Note the handler never writes
`approvedBy`/`rejectionReason` whatever status it stores. -/
def updateMessage (s : St) (userId id : Nat) (u : UpdateReq) : Except ApiErr Msg × St :=
  if ¬ validUpdate u then (.error .validationFailed, s)
  else
    match findOwn s userId id with
    | none => (.error .notFound, s)
    | some m =>
      if ¬(m.status = .draft ∨ m.status = .pendingApproval) then
        (.error .cannotUpdateInCurrentStatus, s)
      else
        (.ok (applyUpdate u m),
         { s with
            messages := s.messages.map fun x => if x.id = id then applyUpdate u x else x,
            audits := s.audits ++
              [{ userId := userId, action := "message.updated", creditsDetail := none }] })

/-- `DELETE /:id` (message.ts:592-660): owner-scoped lookup, DRAFT only,
then one transaction deleting the recipient rows and the message row,
plus an audit row. -/
def deleteMessage (s : St) (userId id : Nat) : Except ApiErr Unit × St :=
  match findOwn s userId id with
  | none => (.error .notFound, s)
  | some m =>
    if m.status ≠ .draft then (.error .messageNotEditable, s)
    else
      (.ok (),
       { s with
          messages := s.messages.filter fun x => x.id ≠ id,
          recips := fun k => if k = id then [] else s.recips k,
          audits := s.audits ++
            [{ userId := userId, action := "message.deleted", creditsDetail := none }] })

/-- The read phase of `POST /:id/send` (message.ts:663-710): fetch the
message (owner-scoped), check the status guard, recompute the required
credits from the stored content and recipient count, and run
`checkUserCredits`.  All of this happens before — and outside — the
`$transaction`, purely as reads. -/
def sendPrepare (s : St) (userId id : Nat) : Except ApiErr (Msg × Nat) :=
  match findOwn s userId id with
  | none => .error .notFound
  | some m =>
    if ¬(m.status = .approved ∨ m.status = .draft) then .error .invalidStateTransition
    else
      let totalCreditsRequired := calculateMessageCredits m.content * m.totalRecipients
      if ¬ checkUserCredits s userId totalCreditsRequired then .error .insufficientCredits
      else .ok (m, totalCreditsRequired)

/-- The `$transaction` of `POST /:id/send` (message.ts:713-783): mark
the message SENT with a timestamp, mark all its recipients SENT,
unconditionally increment `usedCredits` by the pre-computed amount,
append the CREDIT_USAGE transaction row and the audit row, and schedule
the delivery simulation (`setTimeout`, modelled as a pending settlement
task). -/
def sendCommit (s : St) (userId id req now : Nat) : St :=
  { s with
      messages := s.messages.map fun x =>
        if x.id = id then { x with status := .sent, sentAt := some now } else x,
      recips := fun k =>
        if k = id then (s.recips id).map (fun r => { r with status := .sent }) else s.recips k,
      subs := fun u =>
        if u = userId then (s.subs u).map fun sub =>
          { sub with usedCredits := sub.usedCredits + req }
        else s.subs u,
      txns := s.txns ++ [{ userId := userId, credits := -(req : Int), messageId := id }],
      audits := s.audits ++
        [{ userId := userId, action := "message.sent", creditsDetail := some req }],
      pendingSettles := s.pendingSettles ++ [id] }

/-- `POST /:id/send` run start to finish with no interleaved writer:
the read phase followed, when it passes, by the commit phase. -/
def sendMessage (s : St) (userId id now : Nat) : Except ApiErr Msg × St :=
  match sendPrepare s userId id with
  | .error e => (.error e, s)
  | .ok (m, req) =>
      (.ok { m with status := .sent, sentAt := some now }, sendCommit s userId id req now)

/-- `{...status: DELIVERED, deliveredAt: new Date()}` recipient update
of the settlement loop (message.ts:807-815). -/
def deliverR (now : Nat) (r : Recipient) : Recipient :=
  { r with status := .delivered, deliveredAt := some now }

/-- `{...status: FAILED, failureReason: "Network timeout"}` recipient
update of the settlement loop (message.ts:827-835). -/
def failR (r : Recipient) : Recipient :=
  { r with status := .failed, failureReason := some "Network timeout" }

/-- Apply `g` to exactly the recipients whose id is in `ks` — the
per-row `update where {id: recipient.id}` loop of the settlement
transaction. -/
def applyByIds (ks : List Nat) (g : Recipient → Recipient) (l : List Recipient) :
    List Recipient :=
  l.map fun r => if r.rid ∈ ks then g r else r

/-- The body of the `setTimeout` of `POST /:id/send`
(message.ts:784-841), run as one transaction: compute
`deliveredCount = Math.floor(total * 0.95)` (exact on naturals as
`total * 95 / 100`) and `failedCount = total − deliveredCount`, set the
message DELIVERED with those counts, flip the first `deliveredCount`
recipient rows of the message to DELIVERED, then flip up to
`failedCount` still-SENT rows to FAILED.  (The source guards the second
query with `failedCount > 0`; with `take 0` both behave identically.)
A missing message makes the transaction throw, caught by the
surrounding `try` — store unchanged. -/
def settleDelivery (s : St) (id now : Nat) : St :=
  match s.messages.find? (fun m => decide (m.id = id)) with
  | none => s
  | some m =>
    let d := m.totalRecipients * 95 / 100
    let f := m.totalRecipients - d
    let messages' := s.messages.map fun x =>
      if x.id = id then { x with status := .delivered, deliveredCount := d, failedCount := f }
      else x
    let rs := s.recips id
    let firstIds := (rs.take d).map Recipient.rid
    let rs1 := applyByIds firstIds (deliverR now) rs
    let failIds := ((rs1.filter fun r => decide (r.status = .sent)).take f).map Recipient.rid
    let rs2 := applyByIds failIds failR rs1
    { s with
        messages := messages',
        recips := fun k => if k = id then rs2 else s.recips k }

/-! ### Concrete stores for scenario evaluation -/

/-- An empty store. -/
def st0 : St :=
  { nextId := 1, subs := fun _ => none, messages := [], recips := fun _ => [],
    txns := [], audits := [], contacts := [], senderNames := [],
    adminApprovalRequired := false, pendingSettles := [] }

/-- An APPROVED 8-recipient message costing 8 credits. -/
def msgApproved (id : Nat) : Msg :=
  { id := id, userId := 1, content := "hello", messageType := .transactional,
    status := .approved, totalRecipients := 8, deliveredCount := 0, failedCount := 0,
    creditsUsed := 0, sentAt := none, scheduledAt := none, campaignId := none,
    approvedBy := none, rejectionReason := none }

/-- Scenario B store: account 1 has 10 available credits and two
APPROVED messages, each requiring 8 credits to send. -/
def raceSt : St :=
  { st0 with
    nextId := 3,
    subs := fun u => if u = 1 then some { credits := 10, usedCredits := 0 } else none,
    messages := [msgApproved 1, msgApproved 2] }

/-- 321 `'a'` characters (Scenario A content length). -/
def content321 : String := String.mk (List.replicate 321 'a')

/-- Raw Submit input: 10 entries, of which 2 repeat an earlier phone
number (so 8 unique addresses); the duplicates carry different names. -/
def raw10 : List RecipientInput :=
  [⟨"p1", some "first1", none⟩, ⟨"p2", some "first2", none⟩, ⟨"p3", none, none⟩,
   ⟨"p1", some "dup1", none⟩, ⟨"p4", none, none⟩, ⟨"p5", none, none⟩,
   ⟨"p6", none, none⟩, ⟨"p2", some "dup2", none⟩, ⟨"p7", none, none⟩,
   ⟨"p8", none, none⟩]

/-- Scenario A store: account 1 with plenty of credits. -/
def submitSt : St :=
  { st0 with
    subs := fun u => if u = 1 then some { credits := 100, usedCredits := 0 } else none }

/-- Store holding one APPROVED message of account 1 whose content is
321 characters long, addressed to 8 recipients, `creditsUsed` at its
schema default 0. -/
def chargeSt : St :=
  { st0 with
    nextId := 2,
    subs := fun u => if u = 1 then some { credits := 100, usedCredits := 0 } else none,
    messages := [{ msgApproved 1 with content := content321 }] }

/-- Store holding one PENDING_APPROVAL promotional message owned by
account 1. -/
def pendingSt : St :=
  { st0 with
    nextId := 2,
    subs := fun u => if u = 1 then some { credits := 100, usedCredits := 0 } else none,
    messages := [{ msgApproved 1 with
                   messageType := .promotional,
                   status := .pendingApproval }] }

/-- Owner update request that sets the status to APPROVED. -/
def updApprove : UpdateReq := { content := none, messageType := none,
                                scheduledAt := none, status := some .approved }

/-- Owner update request that sets the status to REJECTED (no reason). -/
def updReject : UpdateReq := { content := none, messageType := none,
                               scheduledAt := none, status := some .rejected }

/-- The empty list filter (all optional query params absent, default
page 1 / limit 10). -/
def fAll : MessageFilters :=
  { status := none, messageType := none, campaignId := none, search := none,
    page := 1, limit := 10 }

/-- Store with one message of account 1 and one of account 2. -/
def twoOwnerSt : St :=
  { st0 with
    nextId := 3,
    messages := [msgApproved 1, { msgApproved 2 with userId := 2 }] }

/-- A SENT recipient row for settlement scenarios. -/
def sentRecip (rid : Nat) : Recipient :=
  { rid := rid, phone := "p", firstName := none, lastName := none,
    status := .sent, deliveredAt := none, failureReason := none }

/-- Scenario E store: message 1 is SENT to 8 recipients, all 8 rows
SENT, and a settlement task for it is pending. -/
def settleSt : St :=
  { st0 with
    nextId := 10,
    subs := fun u => if u = 1 then some { credits := 10, usedCredits := 8 } else none,
    messages := [{ msgApproved 1 with status := .sent, sentAt := some 0 }],
    recips := fun k => if k = 1 then (List.range 8).map (fun i => sentRecip (2 + i)) else [],
    pendingSettles := [1] }

/-- Store holding one DRAFT message of account 1 addressed to two
recipients (counts and per-message credits at their defaults). -/
def draftSt : St :=
  { st0 with
    nextId := 2,
    subs := fun u => if u = 1 then some { credits := 100, usedCredits := 0 } else none,
    messages := [{ msgApproved 1 with status := .draft, totalRecipients := 2 }] }

/-- Owner update body carrying unvalidated analytics columns:
`PUT /:id` with `{"deliveredCount": 5, "creditsUsed": 99}`. -/
def updMass : UpdateReq := { deliveredCount := some 5, creditsUsed := some 99 }

/-! ## Theorems -/

/-- Everything the dedup keeps comes from the raw input. -/
theorem dedupeByPhone_subset : ∀ (xs : List RecipientInput),
    ∀ r ∈ dedupeByPhone xs, r ∈ xs := by
  intro xs
  induction xs with
  | nil => intro r hr; simp [dedupeByPhone] at hr
  | cons a t ih =>
    intro r hr
    simp only [dedupeByPhone, List.mem_cons, List.mem_filter] at hr
    rcases hr with hr | ⟨hr, _⟩
    · simp [hr]
    · exact List.mem_cons_of_mem _ (ih r hr)

/-- First-seen-wins: every record the dedup keeps is exactly the first
raw record carrying its phone number (so the duplicate removal of
`POST /` keeps the denormalized name fields of the first occurrence). -/
theorem dedupeByPhone_first_seen : ∀ (xs : List RecipientInput),
    ∀ r ∈ dedupeByPhone xs, xs.find? (fun x => x.phone == r.phone) = some r := by
  intro xs
  induction xs with
  | nil => intro r hr; simp [dedupeByPhone] at hr
  | cons a t ih =>
    intro r hr
    simp only [dedupeByPhone, List.mem_cons, List.mem_filter] at hr
    rcases hr with hr | ⟨hr, hne'⟩
    · subst hr
      exact List.find?_cons_of_pos _ (by simp)
    · have hne : r.phone ≠ a.phone := by simpa using hne'
      have ihr := ih r hr
      rw [List.find?_cons_of_neg _ (by simpa using fun h => hne h.symm)]
      exact ihr

/-- The deduplicated list has pairwise distinct phone numbers. -/
theorem dedupeByPhone_nodup : ∀ (xs : List RecipientInput),
    (dedupeByPhone xs).Pairwise (fun a b => a.phone ≠ b.phone) := by
  intro xs
  induction xs with
  | nil => simp [dedupeByPhone]
  | cons a t ih =>
    simp only [dedupeByPhone]
    refine List.Pairwise.cons ?_ (List.Pairwise.filter _ ih)
    intro r hr h
    have hx : r.phone ≠ a.phone := by simpa using List.of_mem_filter hr
    exact hx h.symm

set_option maxRecDepth 8000 in
/-- C8: Submit deduplicates the resolved recipient set by phone number,
first occurrence winning (names included), and computes cost over the
deduplicated count.  Concretely (Scenario A): 321-character content and
10 raw entries with 2 duplicated phones create the message with
`totalRecipients = 8` and log `creditsRequired = ceil(321/160)·8 = 24`. -/
theorem submit_dedupes_and_costs_unique :
    (∀ (xs : List RecipientInput), ∀ r ∈ dedupeByPhone xs,
        xs.find? (fun x => x.phone == r.phone) = some r) ∧
    (∀ (xs : List RecipientInput),
        (dedupeByPhone xs).Pairwise (fun a b => a.phone ≠ b.phone)) ∧
    (dedupeByPhone raw10).length = 8 ∧
    calculateMessageCredits content321 = 3 ∧
    ((createMessage submitSt 1 content321 .informational raw10 [] none none
        none).1.toOption.map Msg.totalRecipients = some 8) ∧
    ((createMessage submitSt 1 content321 .informational raw10 [] none none
        none).2.audits.map AuditEntry.creditsDetail = [some 24]) := by
  refine ⟨dedupeByPhone_first_seen, dedupeByPhone_nodup, by decide, by decide, ?_, ?_⟩ <;>
    decide

/-- C8 witness: the universally quantified conjuncts applied to the
concrete Scenario A input. -/
theorem submit_dedupes_and_costs_unique_witness :
    raw10.find? (fun x => x.phone == (RecipientInput.mk "p1" (some "first1") none).phone) =
      some (RecipientInput.mk "p1" (some "first1") none) ∧
    (dedupeByPhone raw10).Pairwise (fun a b => a.phone ≠ b.phone) :=
  ⟨submit_dedupes_and_costs_unique.1 raw10 ⟨"p1", some "first1", none⟩ (by decide),
   submit_dedupes_and_costs_unique.2.1 raw10⟩

/-- C9: no invocation of Submit ever touches any subscription row (the
whole subscription table is left intact by every branch), while the
Send commit is exactly where `usedCredits` is incremented. -/
theorem submit_never_debits :
    (∀ (s : St) (userId : Nat) (content : String) (mt : MessageType)
        (recipients : List RecipientInput) (contactListIds : List Nat)
        (senderNameId : Option Nat) (scheduledAt : Option Nat) (campaignId : Option Nat),
        (createMessage s userId content mt recipients contactListIds senderNameId
          scheduledAt campaignId).2.subs = s.subs) ∧
    (∀ (s : St) (userId id req now : Nat),
        (sendCommit s userId id req now).subs userId =
          (s.subs userId).map fun sub => { sub with usedCredits := sub.usedCredits + req }) := by
  constructor
  · intro s userId content mt recipients contactListIds senderNameId scheduledAt campaignId
    unfold createMessage
    dsimp only
    (repeat' split) <;> rfl
  · intro s userId id req now
    simp [sendCommit]

/-- C10: Submit with no explicit recipients and no contact lists fails
with the no-recipients error and performs no write at all — the store
returned is the input store itself. -/
theorem submit_empty_creates_nothing :
    ∀ (s : St) (userId : Nat) (content : String) (mt : MessageType)
      (senderNameId : Option Nat) (scheduledAt : Option Nat) (campaignId : Option Nat),
      1 ≤ content.length → content.length ≤ 1600 →
      createMessage s userId content mt [] [] senderNameId scheduledAt campaignId =
        (.error .noRecipients, s) := by
  intro s userId content mt senderNameId scheduledAt campaignId h1 h2
  unfold createMessage
  rw [if_neg (by simp [h1, h2]), if_pos ⟨rfl, rfl⟩]

/-- C10 witness: the empty Submit evaluated on the empty store. -/
theorem submit_empty_creates_nothing_witness :
    1 ≤ "hello".length ∧ "hello".length ≤ 1600 ∧
    createMessage st0 1 "hello" .transactional [] [] none none none =
      (.error .noRecipients, st0) :=
  ⟨by decide, by decide,
   submit_empty_creates_nothing st0 1 "hello" .transactional none none none
     (by decide) (by decide)⟩

/-- C5: the state-machine guards of Send and Cancel/Delete.  Send on an
owned message fails with the invalid-state-transition response (store
untouched) unless the current status is APPROVED or DRAFT; Delete fails
with the not-editable response (store untouched) unless the status is
DRAFT; a DRAFT delete removes the message row and all of its recipient
rows in the same transaction. -/
theorem send_delete_state_machine :
    (∀ (s : St) (userId id now : Nat) (m : Msg), findOwn s userId id = some m →
        ¬(m.status = .approved ∨ m.status = .draft) →
        sendMessage s userId id now = (.error .invalidStateTransition, s)) ∧
    (∀ (s : St) (userId id : Nat) (m : Msg), findOwn s userId id = some m →
        m.status ≠ .draft →
        deleteMessage s userId id = (.error .messageNotEditable, s)) ∧
    (∀ (s : St) (userId id : Nat) (m : Msg), findOwn s userId id = some m →
        m.status = .draft →
        (deleteMessage s userId id).1 = .ok () ∧
        (∀ x ∈ (deleteMessage s userId id).2.messages, x.id ≠ id) ∧
        (deleteMessage s userId id).2.recips id = []) := by
  refine ⟨?send, ?del, ?delOk⟩
  case send =>
    intro s userId id now m hm hst
    unfold sendMessage sendPrepare
    rw [hm]
    dsimp only
    rw [if_pos hst]
  case del =>
    intro s userId id m hm hst
    unfold deleteMessage
    rw [hm]
    simp [hst]
  case delOk =>
    intro s userId id m hm hst
    unfold deleteMessage
    rw [hm]
    dsimp only
    rw [if_neg (by simp [hst])]
    dsimp only
    refine ⟨rfl, ?_, ?_⟩
    · intro x hx
      exact of_decide_eq_true (List.mem_filter.mp hx).2
    · simp

/-- C5 witness: a SENT message can be neither sent again nor deleted; a
DRAFT one can be deleted, removing its recipients. -/
theorem send_delete_state_machine_witness :
    (findOwn { chargeSt with
        messages := [{ msgApproved 1 with status := .sent }] } 1 1 =
      some { msgApproved 1 with status := .sent }) ∧
    ¬(({ msgApproved 1 with status := .sent }).status = .approved ∨
      ({ msgApproved 1 with status := .sent }).status = .draft) ∧
    sendMessage { chargeSt with
        messages := [{ msgApproved 1 with status := .sent }] } 1 1 0 =
      (.error .invalidStateTransition,
        { chargeSt with messages := [{ msgApproved 1 with status := .sent }] }) ∧
    (findOwn { chargeSt with
        messages := [{ msgApproved 1 with status := .draft }] } 1 1 =
      some { msgApproved 1 with status := .draft }) ∧
    ((deleteMessage { chargeSt with
        messages := [{ msgApproved 1 with status := .draft }] } 1 1).1 = .ok ()) ∧
    ((deleteMessage { chargeSt with
        messages := [{ msgApproved 1 with status := .draft }] } 1 1).2.recips 1 = []) := by
  have h1 := send_delete_state_machine.1
    { chargeSt with messages := [{ msgApproved 1 with status := .sent }] } 1 1 0
    { msgApproved 1 with status := .sent } (by decide) (by decide)
  have h2 := send_delete_state_machine.2.2
    { chargeSt with messages := [{ msgApproved 1 with status := .draft }] } 1 1
    { msgApproved 1 with status := .draft } (by decide) (by decide)
  exact ⟨by decide, by decide, h1, by decide, h2.1, h2.2.2⟩


/-- C4: the list endpoint applies no owner filter — any two
authenticated requesters receive identical results, and the result can
contain other accounts' messages — while get-by-id, update, delete and
send are owner-scoped: they only ever act on a message of the
requester, answering 404 otherwise. -/
theorem list_cross_tenant_but_item_ops_owner_scoped :
    (∀ (s : St) (f : MessageFilters) (u1 u2 : Nat),
        getMessages s u1 f = getMessages s u2 f) ∧
    ((getMessages twoOwnerSt 1 fAll).any (fun m => decide (m.userId ≠ 1)) = true) ∧
    (∀ (s : St) (u id : Nat) (m : Msg), getMessageById s u id = some m →
        m.id = id ∧ m.userId = u) ∧
    (∀ (s : St) (u id : Nat) (upd : UpdateReq), validUpdate upd = true →
        (∀ m ∈ s.messages, ¬(m.id = id ∧ m.userId = u)) →
        updateMessage s u id upd = (.error .notFound, s)) ∧
    (∀ (s : St) (u id : Nat),
        (∀ m ∈ s.messages, ¬(m.id = id ∧ m.userId = u)) →
        deleteMessage s u id = (.error .notFound, s)) ∧
    (∀ (s : St) (u id now : Nat),
        (∀ m ∈ s.messages, ¬(m.id = id ∧ m.userId = u)) →
        sendMessage s u id now = (.error .notFound, s)) := by
  refine ⟨fun s f u1 u2 => rfl, by decide, ?byId, ?upd, ?del, ?send⟩
  case byId =>
    intro s u id m hm
    have hm' : s.messages.find? (fun x => decide (x.id = id ∧ x.userId = u)) = some m := hm
    have hp := List.find?_some hm'
    simpa using hp
  case upd =>
    intro s u id upd hv hnone
    have h0 : findOwn s u id = none :=
      List.find?_eq_none.mpr fun m hm => by simpa using hnone m hm
    unfold updateMessage
    rw [if_neg (by simp [hv]), h0]
  case del =>
    intro s u id hnone
    have h0 : findOwn s u id = none :=
      List.find?_eq_none.mpr fun m hm => by simpa using hnone m hm
    unfold deleteMessage
    rw [h0]
  case send =>
    intro s u id now hnone
    have h0 : findOwn s u id = none :=
      List.find?_eq_none.mpr fun m hm => by simpa using hnone m hm
    unfold sendMessage sendPrepare
    rw [h0]

/-- C4 witness: ownership extraction on a concrete lookup, and 404 for
a requester who owns nothing. -/
theorem list_cross_tenant_but_item_ops_owner_scoped_witness :
    (getMessageById twoOwnerSt 1 1 = some (msgApproved 1)) ∧
    ((msgApproved 1).id = 1 ∧ (msgApproved 1).userId = 1) ∧
    validUpdate updApprove = true ∧
    updateMessage st0 5 9 updApprove = (.error .notFound, st0) :=
  ⟨by decide,
   list_cross_tenant_but_item_ops_owner_scoped.2.2.1 twoOwnerSt 1 1 (msgApproved 1)
     (by decide),
   by decide,
   list_cross_tenant_but_item_ops_owner_scoped.2.2.2.1 st0 5 9 updApprove (by decide)
     (by intro m hm; simp [st0] at hm)⟩

/-- C3 (code evidence): on a PENDING_APPROVAL message, the owner's own
`PUT /:id` succeeds with `status: "APPROVED"` — and likewise with
`status: "REJECTED"`, no reason required — storing the new status while
leaving the schema's `approvedBy` / `rejectionReason` columns NULL.  No
route of the repository implements a reviewer transition. -/
theorem owner_update_self_approves :
    ((updateMessage pendingSt 1 1 updApprove).1.isOk = true) ∧
    (((updateMessage pendingSt 1 1 updApprove).2.messages.map
        fun m => (m.status, m.approvedBy)) = [(.approved, none)]) ∧
    (((updateMessage pendingSt 1 1 updReject).2.messages.map
        fun m => (m.status, m.rejectionReason)) = [(.rejected, none)]) := by
  refine ⟨?_, ?_, ?_⟩ <;> decide

/-- C1 (code evidence): `POST /:id/send` runs `checkUserCredits` as a
read separate from the debiting transaction, and the transaction
increments `usedCredits` unconditionally.  Interleaving two Sends on
the same account (both checks before either commit) with
available = 10 and cost 8 each: both checks pass, both commits apply,
and the account ends at usedCredits = 16 > credits = 10 — consumed
exceeds granted and the spend is 16, not 8. -/
theorem send_race_overspends :
    ((sendPrepare raceSt 1 1).toOption.map (fun x => x.2) = some 8) ∧
    ((sendPrepare raceSt 1 2).toOption.map (fun x => x.2) = some 8) ∧
    ((sendCommit (sendCommit raceSt 1 1 8 0) 1 2 8 0).subs 1 =
      some { credits := 10, usedCredits := 16 }) ∧
    ((10 : Nat) < 16) := by
  refine ⟨?_, ?_, ?_, ?_⟩ <;> decide

/-- C2 (amended): a successful Send charges exactly
`calculateMessageCredits(content) * totalRecipients` recomputed from
the message as currently stored (not from any Submit-time figure),
records that amount as the negative credit delta of the appended
CREDIT_USAGE transaction row — and leaves every message row's
`creditsUsed` column untouched (it stays at its schema default 0). -/
theorem send_recomputes_cost_into_ledger :
    ∀ (s : St) (userId id now : Nat) (m : Msg), findOwn s userId id = some m →
      (m.status = .approved ∨ m.status = .draft) →
      checkUserCredits s userId (calculateMessageCredits m.content * m.totalRecipients) =
        true →
      sendMessage s userId id now =
        (.ok { m with status := .sent, sentAt := some now },
         sendCommit s userId id (calculateMessageCredits m.content * m.totalRecipients) now) ∧
      (sendMessage s userId id now).2.txns =
        s.txns ++ [{ userId := userId,
                     credits := -((calculateMessageCredits m.content * m.totalRecipients : Nat) : Int),
                     messageId := id }] ∧
      (sendMessage s userId id now).2.messages.map Msg.creditsUsed =
        s.messages.map Msg.creditsUsed := by
  intro s userId id now m hm hst hc
  have hsend : sendMessage s userId id now =
      (.ok { m with status := .sent, sentAt := some now },
       sendCommit s userId id (calculateMessageCredits m.content * m.totalRecipients) now) := by
    unfold sendMessage sendPrepare
    rw [hm]
    dsimp only
    rw [if_neg (not_not_intro hst), if_neg (by simp [hc])]
  refine ⟨hsend, ?_, ?_⟩
  · rw [hsend]
    rfl
  · rw [hsend]
    show (s.messages.map fun x =>
        if x.id = id then { x with status := MessageStatus.sent, sentAt := some now }
        else x).map Msg.creditsUsed = s.messages.map Msg.creditsUsed
    rw [List.map_map]
    apply List.map_congr_left
    intro x _
    by_cases h : x.id = id <;> simp [Function.comp, h]

set_option maxRecDepth 8000 in
/-- C2 (counterexample to the final conjunct of the claim as stated):
sending the stored 321-character, 8-recipient APPROVED message succeeds
and charges 24 credits into the ledger row, but the message row's own
credits column (`creditsUsed`, the schema's per-message credit field)
still reads 0, not 24 — the charge is not recorded on the message. -/
theorem send_charge_not_recorded_on_message :
    ((sendMessage chargeSt 1 1 0).1.isOk = true) ∧
    ((sendMessage chargeSt 1 1 0).2.txns.map Txn.credits = [-24]) ∧
    (((sendMessage chargeSt 1 1 0).2.messages.find? fun x => decide (x.id = 1)).map
        Msg.creditsUsed = some 0) ∧
    ((0 : Nat) ≠ 24) := by
  refine ⟨?_, ?_, ?_, ?_⟩ <;> decide

set_option maxRecDepth 8000 in
/-- C2 witness: the amended theorem applied to the stored
321-character, 8-recipient message (charge 3 · 8 = 24). -/
theorem send_recomputes_cost_into_ledger_witness :
    (findOwn chargeSt 1 1 = some { msgApproved 1 with content := content321 }) ∧
    (sendMessage chargeSt 1 1 0).2.txns =
      chargeSt.txns ++ [{ userId := 1, credits := -24, messageId := 1 }] := by
  refine ⟨by decide, ?_⟩
  have h := send_recomputes_cost_into_ledger chargeSt 1 1 0
    { msgApproved 1 with content := content321 } (by decide) (by decide) (by decide)
  have h24 : calculateMessageCredits ({ msgApproved 1 with content := content321 }).content *
      ({ msgApproved 1 with content := content321 }).totalRecipients = 24 := by decide
  have := h.2.1
  rw [h24] at this
  exact this

/-- `applyByIds` with an empty id list changes nothing. -/
theorem applyByIds_nil (g : Recipient → Recipient) (l : List Recipient) :
    applyByIds [] g l = l := by
  unfold applyByIds
  have h : ∀ r ∈ l, (if r.rid ∈ ([] : List Nat) then g r else r) = id r := by
    intro r _
    simp
  rw [List.map_congr_left h, List.map_id]

/-- `applyByIds` fixes every recipient whose id is outside the key set. -/
theorem applyByIds_not_mem (ks : List Nat) (g : Recipient → Recipient)
    (l : List Recipient) (h : ∀ r ∈ l, r.rid ∉ ks) : applyByIds ks g l = l := by
  unfold applyByIds
  have h' : ∀ r ∈ l, (if r.rid ∈ ks then g r else r) = id r := by
    intro r hr
    simp [h r hr]
  rw [List.map_congr_left h', List.map_id]

/-- `applyByIds` rewrites every recipient whose id is inside the key set. -/
theorem applyByIds_mem (ks : List Nat) (g : Recipient → Recipient)
    (l : List Recipient) (h : ∀ r ∈ l, r.rid ∈ ks) : applyByIds ks g l = l.map g :=
  List.map_congr_left fun r hr => by simp [h r hr]

/-- `applyByIds` distributes over append. -/
theorem applyByIds_append (ks : List Nat) (g : Recipient → Recipient)
    (x y : List Recipient) :
    applyByIds ks g (x ++ y) = applyByIds ks g x ++ applyByIds ks g y := by
  simp [applyByIds]

/-- `find?` by id commutes with an id-preserving keyed rewrite of the
list. -/
theorem find?_update_id (l : List Msg) (id : Nat) (g : Msg → Msg)
    (hg : ∀ x, (g x).id = x.id) (m : Msg)
    (hm : l.find? (fun x => decide (x.id = id)) = some m) :
    (l.map fun x => if x.id = id then g x else x).find? (fun x => decide (x.id = id)) =
      some (g m) := by
  induction l with
  | nil => simp at hm
  | cons h t ih =>
    by_cases hid : h.id = id
    · have : m = h := by
        rw [List.find?_cons_of_pos _ (by simpa using hid)] at hm
        exact (Option.some_inj.mp hm).symm
      subst this
      simp only [List.map_cons, if_pos hid]
      exact List.find?_cons_of_pos _ (by simpa using (hg m).trans hid)
    · rw [List.find?_cons_of_neg _ (by simpa using hid)] at hm
      simp only [List.map_cons, if_neg hid]
      rw [List.find?_cons_of_neg _ (by simpa using hid)]
      exact ih hm

/-- `take` of an append at exactly the prefix length. -/
theorem take_len_of_eq {α : Type} {A B : List α} {n : Nat} (h : A.length = n) :
    (A ++ B).take n = A := by
  rw [← h]
  exact List.take_left A B

/-- `drop` of an append at exactly the prefix length. -/
theorem drop_len_of_eq {α : Type} {A B : List α} {n : Nat} (h : A.length = n) :
    (A ++ B).drop n = B := by
  rw [← h]
  exact List.drop_left A B

/-- First pipeline stage of a settlement run: rewriting by the ids of
the first `d` rows rewrites exactly that prefix. -/
theorem applyByIds_take (l : List Recipient) (d : Nat) (g : Recipient → Recipient)
    (hnd : (l.map Recipient.rid).Nodup) :
    applyByIds ((l.take d).map Recipient.rid) g l = (l.take d).map g ++ l.drop d := by
  have hsplit := List.take_append_drop d l
  have hnd2 : ((l.take d).map Recipient.rid ++ (l.drop d).map Recipient.rid).Nodup := by
    rw [← List.map_append, hsplit]
    exact hnd
  have hdisj := (List.nodup_append.mp hnd2).2.2
  calc applyByIds ((l.take d).map Recipient.rid) g l
      = applyByIds ((l.take d).map Recipient.rid) g (l.take d ++ l.drop d) := by
        rw [hsplit]
    _ = (l.take d).map g ++ l.drop d := by
        rw [applyByIds_append,
          applyByIds_mem _ _ _ (fun r hr => List.mem_map_of_mem _ hr),
          applyByIds_not_mem _ _ _
            (fun r hr hmem => hdisj hmem (List.mem_map_of_mem _ hr))]

/-- Second pipeline stage: rewriting by the ids of the dropped suffix
rewrites exactly that suffix, given the prefix was rewritten
id-preservingly. -/
theorem applyByIds_drop (l : List Recipient) (d : Nat) (g h : Recipient → Recipient)
    (hg : ∀ x, (g x).rid = x.rid) (hnd : (l.map Recipient.rid).Nodup) :
    applyByIds ((l.drop d).map Recipient.rid) h ((l.take d).map g ++ l.drop d) =
      (l.take d).map g ++ (l.drop d).map h := by
  have hnd2 : ((l.take d).map Recipient.rid ++ (l.drop d).map Recipient.rid).Nodup := by
    rw [← List.map_append, List.take_append_drop]
    exact hnd
  have hdisj := (List.nodup_append.mp hnd2).2.2
  rw [applyByIds_append,
    applyByIds_mem _ _ _ (fun r hr => List.mem_map_of_mem _ hr),
    applyByIds_not_mem]
  intro r hr hmem
  obtain ⟨x, hx, rfl⟩ := List.mem_map.mp hr
  rw [hg x] at hmem
  exact hdisj (List.mem_map_of_mem _ hx) hmem

/-- C6: settlement is idempotent at the observable level.  From the
post-send configuration (all recipient rows SENT, row count equal to
`totalRecipients`, distinct row ids), the first settlement run flips the
message to DELIVERED with `deliveredCount = ⌊total·0.95⌋` and
`failedCount = total − deliveredCount`; re-running the settlement task
(at-least-once redelivery) leaves the message's (status, delivered,
failed) triple and every recipient's status exactly as after the first
run — no double count, the status flips exactly once. -/
theorem settle_reprocess_noop (s : St) (id t1 t2 : Nat) (m : Msg)
    (hm : s.messages.find? (fun x => decide (x.id = id)) = some m)
    (hAll : ∀ r ∈ s.recips id, r.status = .sent)
    (hLen : (s.recips id).length = m.totalRecipients)
    (hNodup : ((s.recips id).map Recipient.rid).Nodup) :
    (((settleDelivery s id t1).messages.find? fun x => decide (x.id = id)).map
        fun x => (x.status, x.deliveredCount, x.failedCount)) =
      some (.delivered, m.totalRecipients * 95 / 100,
            m.totalRecipients - m.totalRecipients * 95 / 100) ∧
    (((settleDelivery (settleDelivery s id t1) id t2).messages.find? fun x =>
        decide (x.id = id)).map fun x => (x.status, x.deliveredCount, x.failedCount)) =
      some (.delivered, m.totalRecipients * 95 / 100,
            m.totalRecipients - m.totalRecipients * 95 / 100) ∧
    ((settleDelivery (settleDelivery s id t1) id t2).recips id).map Recipient.status =
      ((settleDelivery s id t1).recips id).map Recipient.status := by
  have hd_le : m.totalRecipients * 95 / 100 ≤ m.totalRecipients := by
    calc m.totalRecipients * 95 / 100
        ≤ m.totalRecipients * 100 / 100 :=
          Nat.div_le_div_right (Nat.mul_le_mul_left _ (by norm_num))
      _ = m.totalRecipients := Nat.mul_div_cancel _ (by norm_num)
  have hbLen : ((s.recips id).drop (m.totalRecipients * 95 / 100)).length =
      m.totalRecipients - m.totalRecipients * 95 / 100 := by
    rw [List.length_drop, hLen]
  -- first settlement run, recipient pipeline
  have e2 : (((s.recips id).take (m.totalRecipients * 95 / 100)).map (deliverR t1) ++
        (s.recips id).drop (m.totalRecipients * 95 / 100)).filter
        (fun r => decide (r.status = .sent)) =
      (s.recips id).drop (m.totalRecipients * 95 / 100) := by
    rw [List.filter_append]
    have h2 : (((s.recips id).take (m.totalRecipients * 95 / 100)).map
        (deliverR t1)).filter (fun r => decide (r.status = .sent)) = [] := by
      refine List.filter_eq_nil_iff.mpr ?_
      intro r hr
      obtain ⟨x, _, rfl⟩ := List.mem_map.mp hr
      simp [deliverR]
    have h3 : ((s.recips id).drop (m.totalRecipients * 95 / 100)).filter
        (fun r => decide (r.status = .sent)) =
        (s.recips id).drop (m.totalRecipients * 95 / 100) := by
      refine List.filter_eq_self.mpr ?_
      intro r hr
      simp [hAll r (List.drop_subset _ _ hr)]
    rw [h2, h3, List.nil_append]
  have e3 : ((s.recips id).drop (m.totalRecipients * 95 / 100)).take
      (m.totalRecipients - m.totalRecipients * 95 / 100) =
      (s.recips id).drop (m.totalRecipients * 95 / 100) := by
    rw [← hbLen]
    exact List.take_length _
  have hrec1 : (settleDelivery s id t1).recips id =
      ((s.recips id).take (m.totalRecipients * 95 / 100)).map (deliverR t1) ++
        ((s.recips id).drop (m.totalRecipients * 95 / 100)).map failR := by
    unfold settleDelivery
    rw [hm]
    dsimp only
    rw [if_pos rfl, applyByIds_take _ _ _ hNodup, e2, e3,
      applyByIds_drop (s.recips id) (m.totalRecipients * 95 / 100) (deliverR t1) failR
        (fun x => rfl) hNodup]
  have hmsg1 : (settleDelivery s id t1).messages =
      s.messages.map fun x =>
        if x.id = id then
          { x with
            status := .delivered,
            deliveredCount := m.totalRecipients * 95 / 100,
            failedCount := m.totalRecipients - m.totalRecipients * 95 / 100 }
        else x := by
    unfold settleDelivery
    rw [hm]
  have hm1 : (settleDelivery s id t1).messages.find? (fun x => decide (x.id = id)) =
      some { m with
             status := .delivered,
             deliveredCount := m.totalRecipients * 95 / 100,
             failedCount := m.totalRecipients - m.totalRecipients * 95 / 100 } := by
    rw [hmsg1]
    exact find?_update_id s.messages id
      (fun x =>
        { x with
          status := .delivered,
          deliveredCount := m.totalRecipients * 95 / 100,
          failedCount := m.totalRecipients - m.totalRecipients * 95 / 100 })
      (fun x => rfl) m hm
  set s1 := settleDelivery s id t1 with hs1
  have hAlen : ((s.recips id).take (m.totalRecipients * 95 / 100)).length =
      m.totalRecipients * 95 / 100 := by
    rw [List.length_take]
    exact min_eq_left (hLen ▸ hd_le)
  have hA2len : (((s.recips id).take (m.totalRecipients * 95 / 100)).map
      (deliverR t1)).length = m.totalRecipients * 95 / 100 := by
    rw [List.length_map, hAlen]
  have hrid2 : ((((s.recips id).take (m.totalRecipients * 95 / 100)).map (deliverR t1) ++
      ((s.recips id).drop (m.totalRecipients * 95 / 100)).map failR).map
        Recipient.rid) = (s.recips id).map Recipient.rid := by
    rw [List.map_append, List.map_map, List.map_map]
    calc ((s.recips id).take (m.totalRecipients * 95 / 100)).map
            (Recipient.rid ∘ deliverR t1) ++
          ((s.recips id).drop (m.totalRecipients * 95 / 100)).map
            (Recipient.rid ∘ failR)
        = ((s.recips id).take (m.totalRecipients * 95 / 100)).map Recipient.rid ++
            ((s.recips id).drop (m.totalRecipients * 95 / 100)).map Recipient.rid := by
          congr 1
      _ = (s.recips id).map Recipient.rid := by
          rw [← List.map_append, List.take_append_drop]
  have hnd2 : (((((s.recips id).take (m.totalRecipients * 95 / 100)).map
      (deliverR t1) ++
      ((s.recips id).drop (m.totalRecipients * 95 / 100)).map failR)).map
        Recipient.rid).Nodup := by
    rw [hrid2]
    exact hNodup
  have htake2 : ((((s.recips id).take (m.totalRecipients * 95 / 100)).map
        (deliverR t1) ++
        ((s.recips id).drop (m.totalRecipients * 95 / 100)).map failR).take
          (m.totalRecipients * 95 / 100)) =
      ((s.recips id).take (m.totalRecipients * 95 / 100)).map (deliverR t1) :=
    take_len_of_eq hA2len
  have hdrop2 : ((((s.recips id).take (m.totalRecipients * 95 / 100)).map
        (deliverR t1) ++
        ((s.recips id).drop (m.totalRecipients * 95 / 100)).map failR).drop
          (m.totalRecipients * 95 / 100)) =
      ((s.recips id).drop (m.totalRecipients * 95 / 100)).map failR :=
    drop_len_of_eq hA2len
  have efil2 : ((((s.recips id).take (m.totalRecipients * 95 / 100)).map
        (deliverR t1)).map (deliverR t2) ++
        ((s.recips id).drop (m.totalRecipients * 95 / 100)).map failR).filter
          (fun r => decide (r.status = .sent)) = [] := by
    rw [List.filter_append]
    have p1 : ((((s.recips id).take (m.totalRecipients * 95 / 100)).map
        (deliverR t1)).map (deliverR t2)).filter
          (fun r => decide (r.status = .sent)) = [] := by
      refine List.filter_eq_nil_iff.mpr ?_
      intro r hr
      obtain ⟨x, _, rfl⟩ := List.mem_map.mp hr
      simp [deliverR]
    have p2 : (((s.recips id).drop (m.totalRecipients * 95 / 100)).map failR).filter
        (fun r => decide (r.status = .sent)) = [] := by
      refine List.filter_eq_nil_iff.mpr ?_
      intro r hr
      obtain ⟨x, _, rfl⟩ := List.mem_map.mp hr
      simp [failR]
    rw [p1, p2, List.nil_append]
  have hrec2 : (settleDelivery s1 id t2).recips id =
      (((s.recips id).take (m.totalRecipients * 95 / 100)).map
        (deliverR t1)).map (deliverR t2) ++
        ((s.recips id).drop (m.totalRecipients * 95 / 100)).map failR := by
    unfold settleDelivery
    rw [hm1]
    dsimp only
    rw [if_pos rfl, hrec1, applyByIds_take _ _ _ hnd2, htake2, hdrop2, efil2,
      List.take_nil, List.map_nil, applyByIds_nil]
  have hmsg2 : (settleDelivery s1 id t2).messages =
      s1.messages.map fun x =>
        if x.id = id then
          { x with
            status := .delivered,
            deliveredCount := m.totalRecipients * 95 / 100,
            failedCount := m.totalRecipients - m.totalRecipients * 95 / 100 }
        else x := by
    unfold settleDelivery
    rw [hm1]
  have hm2 : (settleDelivery s1 id t2).messages.find? (fun x => decide (x.id = id)) =
      some { m with
             status := .delivered,
             deliveredCount := m.totalRecipients * 95 / 100,
             failedCount := m.totalRecipients - m.totalRecipients * 95 / 100 } := by
    rw [hmsg2]
    exact find?_update_id s1.messages id
      (fun x =>
        { x with
          status := .delivered,
          deliveredCount := m.totalRecipients * 95 / 100,
          failedCount := m.totalRecipients - m.totalRecipients * 95 / 100 })
      (fun x => rfl)
      ({ m with
         status := .delivered,
         deliveredCount := m.totalRecipients * 95 / 100,
         failedCount := m.totalRecipients - m.totalRecipients * 95 / 100 })
      hm1
  refine ⟨by rw [hm1]; rfl, by rw [hm2]; rfl, ?_⟩
  rw [hrec2, hrec1, List.map_append, List.map_append]
  congr 1
  rw [List.map_map, List.map_map, List.map_map]
  exact List.map_congr_left fun r _ => rfl

/-- C6 witness: the idempotence theorem applied to the concrete
Scenario E store (8 SENT recipients, total 8 → 7 delivered, 1 failed). -/
theorem settle_reprocess_noop_witness :
    (settleSt.messages.find? (fun x => decide (x.id = 1)) =
      some { msgApproved 1 with status := .sent, sentAt := some 0 }) ∧
    ((((settleDelivery settleSt 1 5).messages.find? fun x => decide (x.id = 1)).map
        fun x => (x.status, x.deliveredCount, x.failedCount)) =
      some (.delivered, 7, 1)) ∧
    ((((settleDelivery (settleDelivery settleSt 1 5) 1 9).messages.find? fun x =>
        decide (x.id = 1)).map fun x => (x.status, x.deliveredCount, x.failedCount)) =
      some (.delivered, 7, 1)) ∧
    ((settleDelivery (settleDelivery settleSt 1 5) 1 9).recips 1).map Recipient.status =
      ((settleDelivery settleSt 1 5).recips 1).map Recipient.status := by
  have h := settle_reprocess_noop settleSt 1 5 9
    { msgApproved 1 with status := .sent, sentAt := some 0 }
    (by decide) (by decide) (by decide) (by decide)
  exact ⟨by decide, h.1, h.2.1, h.2.2⟩

/-- C7 (code evidence): `PUT /:id` spreads the raw body into the
update, so the owner of a DRAFT message can write the unvalidated
analytics columns directly: `{"deliveredCount": 5, "creditsUsed": 99}`
on a 2-recipient draft succeeds and leaves the stored message with
`deliveredCount + failedCount = 5 + 0 > 2 = totalRecipients`, and with
the per-message credits column rewritten to 99 — the claimed
`delivered + failed ≤ total` invariant does not hold at the next
observation point. -/
theorem owner_update_overwrites_counts :
    ((updateMessage draftSt 1 1 updMass).1.isOk = true) ∧
    (((updateMessage draftSt 1 1 updMass).2.messages.map fun m =>
        (m.deliveredCount, m.failedCount, m.totalRecipients, m.creditsUsed)) =
      [(5, 0, 2, 99)]) ∧
    ¬(5 + 0 ≤ 2) := by
  refine ⟨?_, ?_, ?_⟩ <;> decide

end A2P
